import Mathlib

/-!
Verification of the phone-call reminder bot's core logic.

This file gives a shallow embedding, in Lean, of the TypeScript sources:

* the TimeParser class (parseTime, parseRelativeTime, parseAbsoluteTime,
  parseDateTime, parseUnixTimestamp, parseNaturalLanguage, formatDelay,
  validateDelay);
* the ReminderWorker retry discipline (shouldRetry, scheduleRetry and the
  worker failed-event handler);
* the ReminderQueue cancelReminder operation.

Conventions of the embedding:

* A JavaScript Date value is an integer count of milliseconds since the Unix
  epoch, modelled as Int.  The local time zone is modelled as UTC with no
  daylight-saving transitions, so local midnight of the day containing a
  timestamp t is (t / 86400000) * 86400000 using floor division.
* JavaScript strings are Lean Strings; the relevant regular expressions are
  embedded as explicit matching functions on the underlying character lists.
* Number parsing via parseInt on an all-digit string is exact integer
  evaluation (no 2^53 float rounding is modelled; all values of interest
  in the claims are far below that bound).
-/

namespace Spec2Proof

/-! ## Character classes used by the regexes -/

/-- The digit class of the regexes (the character class of a backslash-d). -/
def DIGITS : List Char := ['0', '1', '2', '3', '4', '5', '6', '7', '8', '9']

/-- Membership test for the digit class. -/
def isDigitChar (c : Char) : Bool := DIGITS.contains c

/-- The whitespace class of the regexes (ASCII part; all inputs appearing in
the source, its tests and this development use only these). -/
def WSCHARS : List Char := [' ', '\t', '\n', '\r']

/-- Membership test for the whitespace class. -/
def isWsChar (c : Char) : Bool := WSCHARS.contains c

/-- JavaScript String.prototype.toLowerCase on a single ASCII character. -/
def toLowerChar (c : Char) : Char :=
  if 65 ≤ c.toNat && c.toNat ≤ 90 then Char.ofNat (c.toNat + 32) else c

/-- JavaScript String.prototype.toLowerCase, character by character. -/
def jsToLower (cs : List Char) : List Char := cs.map toLowerChar

/-- JavaScript String.prototype.trim: strip whitespace from both ends. -/
def jsTrim (cs : List Char) : List Char :=
  ((cs.dropWhile isWsChar).reverse.dropWhile isWsChar).reverse

/-- Value of an all-digit character list under parseInt, exact integer
semantics. -/
def digitsToNat (cs : List Char) : Nat :=
  cs.foldl (fun a c => a * 10 + (c.toNat - 48)) 0

/-! ## The parse result record

Source: interface TimeParseResult in ReminderTypes.ts, with the timestamp as
epoch milliseconds. -/

/-- Result record of the time parser (TimeParseResult in the source). -/
structure TimeParseResult where
  isValid : Bool
  delayMs : Int
  timestamp : Int
  error : Option String := none
  originalInput : String
deriving Repr, DecidableEq

/-! ## Relative time family

Source: TimeParser.parseRelativeTime and
RELATIVE_TIME_REGEX, an anchored regex of one-or-more digits followed by a
single unit letter s, m, h, d or w, case-insensitive. -/

/-- The unit letters accepted by the relative-time regex (lower case). -/
def RELATIVE_UNITS : List Char := ['s', 'm', 'h', 'd', 'w']

/-- Embedding of RELATIVE_TIME_REGEX: an anchored match of one-or-more digits
followed by one unit letter, case-insensitive.  Returns the numeric value and
the lower-cased unit letter. -/
def matchRelative (cs : List Char) : Option (Nat × Char) :=
  match cs.getLast? with
  | none => none
  | some u =>
    let ds := cs.dropLast
    if !ds.isEmpty && ds.all isDigitChar && RELATIVE_UNITS.contains (toLowerChar u) then
      some (digitsToNat ds, toLowerChar u)
    else
      none

/-- Embedding of TimeParser.parseRelativeTime.  The argument now is the
sampled Date.now() value in ms. -/
def parseRelativeTime (now : Int) (timeString : String) : TimeParseResult :=
  match matchRelative timeString.data with
  | none =>
    { isValid := false, delayMs := 0, timestamp := now, originalInput := timeString }
  | some (value, unit) =>
    if value ≤ 0 then
      { isValid := false, delayMs := 0, timestamp := now,
        error := some "Time value must be greater than 0", originalInput := timeString }
    else
      let delayMs : Option Int :=
        if unit = 's' then some ((value : Int) * 1000)
        else if unit = 'm' then some ((value : Int) * 60 * 1000)
        else if unit = 'h' then some ((value : Int) * 60 * 60 * 1000)
        else if unit = 'd' then some ((value : Int) * 24 * 60 * 60 * 1000)
        else if unit = 'w' then some ((value : Int) * 7 * 24 * 60 * 60 * 1000)
        else none
      match delayMs with
      | none =>
        { isValid := false, delayMs := 0, timestamp := now,
          error := some ("Unknown time unit: " ++ String.mk [unit]),
          originalInput := timeString }
      | some d =>
        { isValid := true, delayMs := d, timestamp := now + d,
          originalInput := timeString }

/-- Millisecond factor of a (lower-case) relative-time unit, as tabulated in
the switch statement of parseRelativeTime. -/
def unitMs (u : Char) : Nat :=
  if u = 's' then 1000
  else if u = 'm' then 60000
  else if u = 'h' then 3600000
  else if u = 'd' then 86400000
  else 604800000

/-! ## Clock-time family

Source: TimeParser.parseAbsoluteTime and ABSOLUTE_TIME_REGEX: an anchored
match of a one-or-two digit hour, a colon, a two digit minute, and an
optional group of arbitrary whitespace followed by am or pm,
case-insensitive. -/

/-- Match the leading (one-or-two digit):(two digit) clock part of the
absolute and date-time regexes, returning hour value, minute value and the
remaining characters. -/
def matchClockPart : List Char → Option (Nat × Nat × List Char)
  | d1 :: d2 :: ':' :: m1 :: m2 :: r =>
    if isDigitChar d1 && isDigitChar d2 && isDigitChar m1 && isDigitChar m2 then
      some (digitsToNat [d1, d2], digitsToNat [m1, m2], r)
    else
      none
  | d1 :: ':' :: m1 :: m2 :: r =>
    if isDigitChar d1 && isDigitChar m1 && isDigitChar m2 then
      some (digitsToNat [d1], digitsToNat [m1, m2], r)
    else
      none
  | _ => none

/-- Match the optional trailing group of whitespace plus am or pm
(case-insensitive), anchored at the end of the input.  Returns none when the
remainder fits neither the empty case nor the meridiem case. -/
def matchAmPm (cs : List Char) : Option (Option String) :=
  if cs.isEmpty then
    some none
  else
    let t := jsToLower (cs.dropWhile isWsChar)
    if t = ['a', 'm'] then some (some "am")
    else if t = ['p', 'm'] then some (some "pm")
    else none

/-- Embedding of ABSOLUTE_TIME_REGEX as a whole: hour, minute and optional
meridiem. -/
def matchAbsolute (cs : List Char) : Option (Nat × Nat × Option String) :=
  match matchClockPart cs with
  | none => none
  | some (h, mi, rest) =>
    match matchAmPm rest with
    | none => none
    | some p => some (h, mi, p)

/-- The 12-hour to 24-hour conversion of parseAbsoluteTime and parseDateTime:
pm on an hour other than 12 adds 12, am on hour 12 gives 0, anything else is
unchanged. -/
def convert12 (hour : Nat) (period : Option String) : Nat :=
  if period = some "pm" ∧ hour ≠ 12 then hour + 12
  else if period = some "am" ∧ hour = 12 then 0
  else hour

/-- Local midnight of the day containing now, the effect of
setHours(h, m, 0, 0) before the hour and minute offsets are added (UTC
model, see the file comment). -/
def dayStartOf (now : Int) : Int := (now / 86400000) * 86400000

/-- Embedding of TimeParser.parseAbsoluteTime: resolve a clock time against
today, rolling forward one calendar day when the resolved instant is not in
the future. -/
def parseAbsoluteTime (now : Int) (timeString : String) : TimeParseResult :=
  match matchAbsolute timeString.data with
  | none =>
    { isValid := false, delayMs := 0, timestamp := now, originalInput := timeString }
  | some (h0, minute, period) =>
    let hour := convert12 h0 period
    if hour > 23 ∨ minute > 59 then
      { isValid := false, delayMs := 0, timestamp := now,
        error := some "Invalid time values", originalInput := timeString }
    else
      let target0 := dayStartOf now + (hour : Int) * 3600000 + (minute : Int) * 60000
      let target := if target0 ≤ now then target0 + 86400000 else target0
      { isValid := true, delayMs := target - now, timestamp := target,
        originalInput := timeString }

/-! ## Explicit date-time family

Source: TimeParser.parseDateTime and DATE_TIME_REGEX: month slash day slash
four-digit year, whitespace, then the clock part with optional meridiem.
The Date constructor semantics (component rollover, proleptic Gregorian
calendar) are embedded below. -/

/-- Match a one-or-two digit number followed by a slash; returns the value
and the remainder after the slash. -/
def matchNumSlash : List Char → Option (Nat × List Char)
  | d1 :: d2 :: '/' :: r =>
    if isDigitChar d1 && isDigitChar d2 then some (digitsToNat [d1, d2], r) else none
  | d1 :: '/' :: r =>
    if isDigitChar d1 then some (digitsToNat [d1], r) else none
  | _ => none

/-- Match exactly four digits; returns the value and the remainder. -/
def matchYear4 : List Char → Option (Nat × List Char)
  | y1 :: y2 :: y3 :: y4 :: r =>
    if isDigitChar y1 && isDigitChar y2 && isDigitChar y3 && isDigitChar y4 then
      some (digitsToNat [y1, y2, y3, y4], r)
    else
      none
  | _ => none

/-- The components captured by DATE_TIME_REGEX. -/
structure DateTimeParts where
  month : Nat
  day : Nat
  year : Nat
  hour : Nat
  minute : Nat
  period : Option String
deriving Repr, DecidableEq

/-- Embedding of DATE_TIME_REGEX: month, day, year, hour, minute, optional
meridiem. -/
def matchDateTime (cs : List Char) : Option DateTimeParts := do
  let (mo, r1) ← matchNumSlash cs
  let (dy, r2) ← matchNumSlash r1
  let (yr, r3) ← matchYear4 r2
  match r3 with
  | [] => none
  | c :: _ =>
    if isWsChar c then
      let r4 := r3.dropWhile isWsChar
      let (h, mi, r5) ← matchClockPart r4
      let p ← matchAmPm r5
      pure { month := mo, day := dy, year := yr, hour := h, minute := mi, period := p }
    else
      none

/-- Day count from the epoch 1970-01-01 of the civil date y-m-d (m in 1..12,
d may exceed the month length; proleptic Gregorian).  This is the standard
days-from-civil computation used to embed the JavaScript Date constructor. -/
def daysFromCivil (y : Int) (m : Nat) (d : Int) : Int :=
  let y' := y - (if m ≤ 2 then 1 else 0)
  let era := (if 0 ≤ y' then y' else y' - 399) / 400
  let yoe := y' - era * 400
  let mp : Int := if m > 2 then (m : Int) - 3 else (m : Int) + 9
  let doy := (153 * mp + 2) / 5 + d - 1
  let doe := yoe * 365 + yoe / 4 - yoe / 100 + doy
  era * 146097 + doe - 719468

/-- Embedding of the JavaScript Date constructor
new Date(year, monthIndex, day, hour, minute, 0, 0).valueOf() in the UTC
model: the zero-based month index rolls over into adjacent years, the day
rolls over into adjacent months, hours and minutes are plain offsets. -/
def jsDateMs (year monthIndex day hour minute : Int) : Int :=
  let ym := year * 12 + monthIndex
  let y := ym / 12
  let m0 := ym % 12
  (daysFromCivil y (m0.toNat + 1) 1 + (day - 1)) * 86400000
    + hour * 3600000 + minute * 60000

/-- The JavaScript Date range bound: timestamps beyond 8.64e15 ms from the
epoch in either direction are an invalid Date (NaN). -/
def JS_DATE_RANGE : Int := 8640000000000000

/-- Embedding of TimeParser.parseDateTime: build the absolute timestamp
directly, reject an invalid (out of range) Date, reject a past date, no
roll forward. -/
def parseDateTime (now : Int) (timeString : String) : TimeParseResult :=
  match matchDateTime timeString.data with
  | none =>
    { isValid := false, delayMs := 0, timestamp := now, originalInput := timeString }
  | some parts =>
    let hour := convert12 parts.hour parts.period
    let target := jsDateMs (parts.year : Int) ((parts.month : Int) - 1) (parts.day : Int)
      (hour : Int) (parts.minute : Int)
    if target < -JS_DATE_RANGE ∨ JS_DATE_RANGE < target then
      { isValid := false, delayMs := 0, timestamp := now,
        error := some "Invalid date", originalInput := timeString }
    else if target ≤ now then
      { isValid := false, delayMs := 0, timestamp := now,
        error := some "Date is in the past", originalInput := timeString }
    else
      { isValid := true, delayMs := target - now, timestamp := target,
        originalInput := timeString }

/-! ## Unix timestamp family

Source: TimeParser.parseUnixTimestamp and UNIX_TIMESTAMP_REGEX, an anchored
match of ten to thirteen digits. -/

/-- Embedding of UNIX_TIMESTAMP_REGEX: the repetition bound in the source
regex is ten to thirteen digits (not only ten or thirteen). -/
def unixMatches (s : String) : Bool :=
  s.data.all isDigitChar && decide (10 ≤ s.data.length) && decide (s.data.length ≤ 13)

/-- Embedding of TimeParser.parseUnixTimestamp: a ten character match is
seconds since the epoch, every other matched length is milliseconds; a
non-future instant is a past-timestamp error. -/
def parseUnixTimestamp (now : Int) (timeString : String) : TimeParseResult :=
  if !unixMatches timeString then
    { isValid := false, delayMs := 0, timestamp := now, originalInput := timeString }
  else
    let n := digitsToNat timeString.data
    let target : Int := if timeString.data.length = 10 then (n : Int) * 1000 else (n : Int)
    if target ≤ now then
      { isValid := false, delayMs := 0, timestamp := now,
        error := some "Timestamp is in the past", originalInput := timeString }
    else
      { isValid := true, delayMs := target - now, timestamp := target,
        originalInput := timeString }

/-! ## Natural language family

Source: TimeParser.parseNaturalLanguage.  The source delegates to the moment
library in strict mode against a fixed format list: tomorrow-plus-clock-time
forms, bare weekday names, and next-weekday forms; everything else fails the
family.  The call into moment is external to the repository, so its
resolution of the matched forms is embedded structurally from that format
list: a matched string yields a determinate candidate instant (tomorrow at
the given clock time; the named weekday of the current week at midnight,
plus seven days for a next-weekday form).  The add-one-week adjustment for a
bare weekday that resolved before now, and the final past check, are the
source's own code and are embedded exactly. -/

/-- Weekday vocabulary, indexed Sunday = 0 as in JavaScript. -/
def WEEKDAYS : List String :=
  ["sunday", "monday", "tuesday", "wednesday", "thursday", "friday", "saturday"]

/-- A structurally matched natural-language form. -/
inductive NaturalForm where
  | tomorrowAt (hour minute : Nat) (period : Option String)
  | bareWeekday (w : Nat)
  | nextWeekday (w : Nat)
deriving Repr, DecidableEq

/-- Index of a weekday name in the vocabulary. -/
def weekdayIndex (s : String) : Option Nat :=
  WEEKDAYS.findIdx? (fun w => w = s)

/-- Structural match of the natural-language format list. -/
def matchNatural (cs : List Char) : Option NaturalForm :=
  match weekdayIndex (String.mk cs) with
  | some w => some (NaturalForm.bareWeekday w)
  | none =>
    if ("next week monday").data.isPrefixOf cs && cs = ("next week monday").data then
      some (NaturalForm.nextWeekday 1)
    else if ("next ").data.isPrefixOf cs then
      match weekdayIndex (String.mk (cs.drop 5)) with
      | some w => some (NaturalForm.nextWeekday w)
      | none => none
    else if ("tomorrow ").data.isPrefixOf cs then
      match matchClockPart (cs.drop 9) with
      | some (h, mi, rest) =>
        match matchAmPm rest with
        | some p => some (NaturalForm.tomorrowAt h mi p)
        | none => none
      | none => none
    else
      none

/-- Weekday of the day containing now (Sunday = 0); the epoch day was a
Thursday. -/
def weekdayOf (now : Int) : Int := (now / 86400000 + 4) % 7

/-- Candidate instant for a matched natural-language form, before the
source's own adjustment and past check. -/
def resolveNatural (now : Int) : NaturalForm → Int
  | NaturalForm.tomorrowAt h mi p =>
    dayStartOf now + 86400000 + (convert12 h p : Int) * 3600000 + (mi : Int) * 60000
  | NaturalForm.bareWeekday w =>
    dayStartOf now + ((w : Int) - weekdayOf now) * 86400000
  | NaturalForm.nextWeekday w =>
    dayStartOf now + ((w : Int) - weekdayOf now) * 86400000 + 7 * 86400000

/-- Embedding of TimeParser.parseNaturalLanguage. -/
def parseNaturalLanguage (now : Int) (timeString : String) : TimeParseResult :=
  match matchNatural (jsToLower timeString.data) with
  | none =>
    { isValid := false, delayMs := 0, timestamp := now, originalInput := timeString }
  | some form =>
    let parsed0 := resolveNatural now form
    let isBare := match form with
      | NaturalForm.bareWeekday _ => true
      | _ => false
    let parsed := if parsed0 < now && isBare then parsed0 + 7 * 86400000 else parsed0
    let delayMs := parsed - now
    if delayMs ≤ 0 then
      { isValid := false, delayMs := 0, timestamp := now,
        error := some "Parsed time is in the past", originalInput := timeString }
    else
      { isValid := true, delayMs := delayMs, timestamp := parsed,
        originalInput := timeString }

/-! ## The composite parser

Source: TimeParser.parseTime.  The input is trimmed and lower-cased once;
each family is tried in fixed order and its result returned only when that
result is valid; otherwise the next family is tried, ending in the generic
unrecognized-format error built from the raw input.  Nothing in the
embedding throws, so the catch wrapper of the source is not represented. -/

/-- The generic unrecognized-format error message of parseTime. -/
def unableMsg (timeString : String) : String :=
  "Unable to parse time format: \"" ++ timeString ++
    "\". Supported formats: 6h, 45m, 9:00am, 12/25/2024 9:00am, 1640995200, or \"tomorrow 9am\""

/-- Embedding of TimeParser.parseTime. -/
def parseTime (now : Int) (timeString : String) : TimeParseResult :=
  let input : String := String.mk (jsToLower (jsTrim timeString.data))
  let relativeResult := parseRelativeTime now input
  if relativeResult.isValid then relativeResult
  else
    let absoluteResult := parseAbsoluteTime now input
    if absoluteResult.isValid then absoluteResult
    else
      let dateTimeResult := parseDateTime now input
      if dateTimeResult.isValid then dateTimeResult
      else
        let unixResult := parseUnixTimestamp now input
        if unixResult.isValid then unixResult
        else
          let naturalResult := parseNaturalLanguage now input
          if naturalResult.isValid then naturalResult
          else
            { isValid := false, delayMs := 0, timestamp := now,
              error := some (unableMsg timeString), originalInput := timeString }

/-! ## formatDelay and validateDelay -/

/-- Embedding of TimeParser.formatDelay. -/
def formatDelay (delayMs : Int) : String :=
  if delayMs < 1000 then
    toString delayMs ++ "ms"
  else
    let seconds := delayMs / 1000
    if seconds < 60 then
      toString seconds ++ "s"
    else
      let minutes := seconds / 60
      if minutes < 60 then
        let remainingSeconds := seconds % 60
        if remainingSeconds > 0 then
          toString minutes ++ "m " ++ toString remainingSeconds ++ "s"
        else
          toString minutes ++ "m"
      else
        let hours := minutes / 60
        if hours < 24 then
          let remainingMinutes := minutes % 60
          if remainingMinutes > 0 then
            toString hours ++ "h " ++ toString remainingMinutes ++ "m"
          else
            toString hours ++ "h"
        else
          let days := hours / 24
          let remainingHours := hours % 24
          if remainingHours > 0 then
            toString days ++ "d " ++ toString remainingHours ++ "h"
          else
            toString days ++ "d"

/-- Result record of TimeParser.validateDelay. -/
structure ValidationResult where
  isValid : Bool
  error : Option String := none
deriving Repr, DecidableEq

/-- Embedding of TimeParser.validateDelay; the source gives maxDays the
default value 30 at the call boundary. -/
def validateDelay (delayMs : Int) (maxDays : Int) : ValidationResult :=
  let maxMs := maxDays * 24 * 60 * 60 * 1000
  if delayMs ≤ 0 then
    { isValid := false, error := some "Delay must be greater than 0" }
  else if delayMs > maxMs then
    { isValid := false, error := some ("Delay cannot exceed " ++ toString maxDays ++ " days") }
  else
    { isValid := true }

/-- The default policy bound of validateDelay. -/
def validateDelayDefault (delayMs : Int) : ValidationResult :=
  validateDelay delayMs 30

/-- The relative units in both letter cases, as the claim quantifies over
them. -/
def RELATIVE_UNITS_BOTH_CASES : List Char :=
  ['s', 'S', 'm', 'M', 'h', 'H', 'd', 'D', 'w', 'W']

/-! ## Worker retry discipline

Source: ReminderWorker.shouldRetry, ReminderWorker.scheduleRetry, and the
worker failed-event handler installed by setupWorkerEventHandlers, which
forwards a failed job to handleFailedJob only when the job's name is
reminder.  handleFailedJob schedules one retry when shouldRetry accepts the
error and otherwise only logs the permanent failure. -/

/-- Substring containment test (JavaScript String.prototype.includes). -/
def containsSubstr (needle : List Char) : List Char → Bool
  | [] => needle.isEmpty
  | c :: t => needle.isPrefixOf (c :: t) || containsSubstr needle t

/-- The fixed keyword set of ReminderWorker.shouldRetry. -/
def RETRYABLE_ERRORS : List String :=
  ["ECONNRESET", "ETIMEDOUT", "ENOTFOUND", "ECONNREFUSED",
   "Network Error", "timeout", "rate limit", "quota exceeded"]

/-- Embedding of ReminderWorker.shouldRetry: keyword containment, both sides
lower-cased. -/
def shouldRetry (errorMessage : String) : Bool :=
  let msg := jsToLower errorMessage.data
  RETRYABLE_ERRORS.any (fun r => containsSubstr (jsToLower r.data) msg)

/-- The job options of a queued job (the opts the retry logic reads). -/
structure JobOpts where
  delay : Option Nat := none
  priority : Option Int := none
deriving Repr, DecidableEq

/-- A queued job as seen by the worker handlers. -/
structure QueueJob where
  name : String
  id : String
  opts : JobOpts
deriving Repr, DecidableEq

/-- The arguments ReminderWorker.scheduleRetry passes to queue.add for the
retry job. -/
structure RetryJobSpec where
  name : String
  id : String
  delay : Nat
  priority : Int
  attempts : Nat
deriving Repr, DecidableEq

/-- Embedding of ReminderWorker.scheduleRetry: one retry job named
reminder-retry, delayed by the minimum of five minutes and the original
delay, at priority one above the original, with a single attempt.  nowTag is
the Date.now() component of the generated job id. -/
def scheduleRetry (job : QueueJob) (nowTag : Nat) : RetryJobSpec :=
  { name := "reminder-retry"
    id := "retry-" ++ job.id ++ "-" ++ toString nowTag
    delay := min (5 * 60 * 1000) (job.opts.delay.getD 0)
    priority := job.opts.priority.getD 0 + 1
    attempts := 1 }

/-- Embedding of the worker failed-event handler composed with
handleFailedJob: the list of jobs re-enqueued in reaction to one failure. -/
def onWorkerFailed (job : QueueJob) (errorMessage : String) (nowTag : Nat) : List RetryJobSpec :=
  if job.name = "reminder" then
    if shouldRetry errorMessage then [scheduleRetry job nowTag] else []
  else
    []

/-- The retry job as it appears in the queue, for feeding back into the
failure handler. -/
def retryAsQueueJob (r : RetryJobSpec) : QueueJob :=
  { name := r.name, id := r.id,
    opts := { delay := some r.delay, priority := some r.priority } }

/-! ## Queue cancellation

Source: ReminderQueue.cancelReminder.  The two backend effects, getJob and
job.remove, are external asynchronous calls that can throw; they are
parameters of the embedding, an Except value and an Except-valued function.
The source's own logic is: a thrown error anywhere is caught and becomes
false; a missing job is false; a found job is removed (whatever its state)
and gives true when the removal call does not throw. -/

/-- Job states of the scheduled-job store. -/
inductive JobState where
  | waiting
  | delayed
  | active
  | completed
  | failed
deriving Repr, DecidableEq

/-- A stored job as seen by cancelReminder: its id and current state. -/
structure StoreJob where
  id : String
  state : JobState
deriving Repr, DecidableEq

/-- Embedding of ReminderQueue.cancelReminder over an abstract backend:
getJobRes is the outcome of queue.getJob (an error when the store call
throws), removeRes the outcome of job.remove on the found job. -/
def cancelReminder (getJobRes : Except String (Option StoreJob))
    (removeRes : StoreJob → Except String Unit) : Bool :=
  match getJobRes with
  | Except.error _ => false
  | Except.ok none => false
  | Except.ok (some job) =>
    match removeRes job with
    | Except.error _ => false
    | Except.ok _ => true

/-! ## Claim C1 (code bug)

The repository's own test suite asserts that parseTime of the string 0h is
invalid with a greater-than-0 reason and that parseTime of 25:00 is invalid
with an invalid-time-values reason.  The families do produce those errors,
but parseTime returns a family's result only when it is valid, so both
inputs fall through every family and end in the generic
unrecognized-format error. -/

/-- C1: the claim (and the repository's test suite) says parseTime returns
the first structurally matching family's own error; the code instead drops
invalid family results and falls through to the generic error.  Evaluated at
the failing inputs 0h and 25:00 with now = 1760000000000: the relative and
clock families produce the family-specific errors, but parseTime discards
them and returns the generic unrecognized-format message. -/
theorem c1_family_error_not_returned :
    (parseRelativeTime 1760000000000 "0h").isValid = false ∧
    (parseRelativeTime 1760000000000 "0h").error = some "Time value must be greater than 0" ∧
    (parseTime 1760000000000 "0h").isValid = false ∧
    (parseTime 1760000000000 "0h").error = some (unableMsg "0h") ∧
    (parseAbsoluteTime 1760000000000 "25:00").isValid = false ∧
    (parseAbsoluteTime 1760000000000 "25:00").error = some "Invalid time values" ∧
    (parseTime 1760000000000 "25:00").error = some (unableMsg "25:00") := by
  decide

/-! ## Claim C2 -/

/-- C2: a failed job named reminder whose error is classified retryable is
re-enqueued exactly once, with delay the minimum of five minutes and the
original delay, with priority strictly above the original and a single
attempt; and a failure of the resulting retry job (whatever its error)
enqueues nothing further. -/
theorem c2_retry_discipline (job : QueueJob) (errorMessage : String) (nowTag : Nat)
    (e2 : String) (t2 : Nat)
    (hname : job.name = "reminder") (hretry : shouldRetry errorMessage = true) :
    onWorkerFailed job errorMessage nowTag = [scheduleRetry job nowTag] ∧
    (scheduleRetry job nowTag).delay = min 300000 (job.opts.delay.getD 0) ∧
    job.opts.priority.getD 0 < (scheduleRetry job nowTag).priority ∧
    (scheduleRetry job nowTag).attempts = 1 ∧
    onWorkerFailed (retryAsQueueJob (scheduleRetry job nowTag)) e2 t2 = [] := by
  refine ⟨?_, rfl, ?_, rfl, ?_⟩
  · simp [onWorkerFailed, hname, hretry]
  · simp [scheduleRetry]
  · simp [onWorkerFailed, retryAsQueueJob, scheduleRetry]

/-- Witness for C2 at a concrete job and error. -/
theorem c2_retry_discipline_witness :
    onWorkerFailed { name := "reminder", id := "j1", opts := { delay := some 600000, priority := some 0 } } "ETIMEDOUT" 7 =
      [scheduleRetry { name := "reminder", id := "j1", opts := { delay := some 600000, priority := some 0 } } 7] ∧
    (scheduleRetry { name := "reminder", id := "j1", opts := { delay := some 600000, priority := some 0 } } 7).delay =
      min 300000 (Option.getD (some 600000) 0) ∧
    Option.getD (some (0 : Int)) 0 <
      (scheduleRetry { name := "reminder", id := "j1", opts := { delay := some 600000, priority := some 0 } } 7).priority ∧
    (scheduleRetry { name := "reminder", id := "j1", opts := { delay := some 600000, priority := some 0 } } 7).attempts = 1 ∧
    onWorkerFailed (retryAsQueueJob (scheduleRetry { name := "reminder", id := "j1", opts := { delay := some 600000, priority := some 0 } } 7)) "ETIMEDOUT" 9 = [] :=
  c2_retry_discipline { name := "reminder", id := "j1", opts := { delay := some 600000, priority := some 0 } }
    "ETIMEDOUT" 7 "ETIMEDOUT" 9 rfl (by decide)

/-! ## Claim C7 (corrected) -/

/-- C7 counterexample: the claim says cancelReminder returns false exactly
for Active, terminal or unknown jobs and surfaces store failures as a
distinct failure mode.  In the code a store error thrown by getJob is caught
and returned as the same false as an unknown job, and a found job in a
terminal state whose removal succeeds yields true. -/
theorem c7_cancel_counterexample :
    cancelReminder (Except.error "ECONNREFUSED: store unreachable") (fun _ => Except.ok ()) = false ∧
    cancelReminder (Except.ok none) (fun _ => Except.ok ()) = false ∧
    cancelReminder (Except.ok (some { id := "job-1", state := JobState.completed }))
      (fun _ => Except.ok ()) = true := by
  exact ⟨rfl, rfl, rfl⟩

/-- C7 amended: cancelReminder returns true exactly when the store lookup
succeeds with a job (in whatever state) and the removal call succeeds; an
unknown job, a failed removal, and a store failure all come back as the same
false, so no distinct failure mode reaches the caller. -/
theorem c7_cancel_amended (g : Except String (Option StoreJob))
    (r : StoreJob → Except String Unit) :
    cancelReminder g r = true ↔ ∃ job, g = Except.ok (some job) ∧ r job = Except.ok () := by
  unfold cancelReminder
  rcases g with e | j
  · simp
  · rcases j with _ | job
    · simp
    · rcases hr : r job with e | u
      · simp [hr]
      · simp [hr]

/-! ## Claim C8 -/

/-- C8: validateDelay accepts exactly the delays with 0 < delay and delay at
most maxDays days in ms, a non-positive delay gets the greater-than-0
reason, an excessive delay gets the cannot-exceed reason, and the default
policy bound is 30 days. -/
theorem c8_validate_delay (d maxDays : Int) (hpos : 0 < maxDays) :
    ((validateDelay d maxDays).isValid = true ↔ 0 < d ∧ d ≤ maxDays * 86400000) ∧
    (d ≤ 0 → (validateDelay d maxDays).error = some "Delay must be greater than 0") ∧
    (maxDays * 86400000 < d →
      (validateDelay d maxDays).error = some ("Delay cannot exceed " ++ toString maxDays ++ " days")) ∧
    validateDelayDefault d = validateDelay d 30 := by
  refine ⟨?_, ?_, ?_, rfl⟩
  · simp only [validateDelay]
    split_ifs with h1 h2 <;> simp <;> omega
  · intro h
    simp only [validateDelay]
    rw [if_pos h]
  · intro h
    have h1 : ¬ d ≤ 0 := by omega
    have h2 : d > maxDays * 24 * 60 * 60 * 1000 := by omega
    simp only [validateDelay]
    rw [if_neg h1, if_pos h2]

/-- Witness for C8 at delay one hour against the default 30 day bound. -/
theorem c8_validate_delay_witness :
    ((validateDelay 3600000 30).isValid = true ↔ 0 < (3600000 : Int) ∧ (3600000 : Int) ≤ 30 * 86400000) ∧
    ((3600000 : Int) ≤ 0 → (validateDelay 3600000 30).error = some "Delay must be greater than 0") ∧
    ((30 : Int) * 86400000 < 3600000 →
      (validateDelay 3600000 30).error = some ("Delay cannot exceed " ++ toString (30 : Int) ++ " days")) ∧
    validateDelayDefault 3600000 = validateDelay 3600000 30 :=
  c8_validate_delay 3600000 30 (by decide)

/-! ## Claim C9 -/

/-- C9: formatDelay of the delay parsed from 2h renders exactly 2h, and
formatDelay of two hours, two minutes and three seconds renders exactly
2h 2m: once an hour is reached only hours and minutes appear and the seconds
component is dropped. -/
theorem c9_format_delay_truncation :
    (parseTime 1760000000000 "2h").delayMs = 7200000 ∧
    formatDelay ((parseTime 1760000000000 "2h").delayMs) = "2h" ∧
    formatDelay (2 * 3600000 + 2 * 60000 + 3 * 1000) = "2h 2m" := by
  decide

/-! ## Claim C5 (corrected) -/

/-- C5 counterexample: the claim says the unix-timestamp family matches only
strings of exactly ten or exactly thirteen digits; the source regex bound is
ten to thirteen, so the eleven-digit string 12345678901 matches the family
(and, being a past instant as milliseconds, draws the past-timestamp error
instead of the no-match result). -/
theorem c5_unix_regex_counterexample :
    unixMatches "12345678901" = true ∧
    ("12345678901" : String).length ≠ 10 ∧
    ("12345678901" : String).length ≠ 13 ∧
    (parseUnixTimestamp 1760000000000 "12345678901").error = some "Timestamp is in the past" := by
  decide

/-- C5 amended: the unix-timestamp family matches exactly the all-digit
strings of length ten to thirteen; a ten-digit match is seconds since the
epoch and every other matched length is milliseconds; a matched instant at
or before now is invalid with the past-timestamp reason, and a future one is
valid with delay the exact millisecond difference. -/
theorem c5_unix_amended (now : Int) (s : String) (hm : unixMatches s = true) :
    (s.data.all isDigitChar = true ∧ 10 ≤ s.data.length ∧ s.data.length ≤ 13) ∧
    ((if s.data.length = 10 then (digitsToNat s.data : Int) * 1000 else (digitsToNat s.data : Int)) ≤ now →
      parseUnixTimestamp now s =
        { isValid := false, delayMs := 0, timestamp := now,
          error := some "Timestamp is in the past", originalInput := s }) ∧
    (now < (if s.data.length = 10 then (digitsToNat s.data : Int) * 1000 else (digitsToNat s.data : Int)) →
      parseUnixTimestamp now s =
        { isValid := true,
          delayMs := (if s.data.length = 10 then (digitsToNat s.data : Int) * 1000 else (digitsToNat s.data : Int)) - now,
          timestamp := (if s.data.length = 10 then (digitsToNat s.data : Int) * 1000 else (digitsToNat s.data : Int)),
          originalInput := s }) := by
  have hm' := hm
  unfold unixMatches at hm'
  simp only [Bool.and_eq_true, decide_eq_true_eq] at hm'
  refine ⟨⟨hm'.1.1, hm'.1.2, hm'.2⟩, ?_, ?_⟩
  · intro h
    unfold parseUnixTimestamp
    rw [hm]
    simp only [Bool.not_true, Bool.false_eq_true, if_false]
    rw [if_pos h]
  · intro h
    unfold parseUnixTimestamp
    rw [hm]
    simp only [Bool.not_true, Bool.false_eq_true, if_false]
    rw [if_neg (by omega)]

/-- Witness for C5 at the future ten-digit timestamp 1640995200 seen from
now = 1600000000000. -/
theorem c5_unix_amended_witness :
    (("1640995200" : String).data.all isDigitChar = true ∧
      10 ≤ ("1640995200" : String).data.length ∧ ("1640995200" : String).data.length ≤ 13) ∧
    ((if ("1640995200" : String).data.length = 10 then (digitsToNat ("1640995200" : String).data : Int) * 1000 else (digitsToNat ("1640995200" : String).data : Int)) ≤ 1600000000000 →
      parseUnixTimestamp 1600000000000 "1640995200" =
        { isValid := false, delayMs := 0, timestamp := 1600000000000,
          error := some "Timestamp is in the past", originalInput := "1640995200" }) ∧
    (1600000000000 < (if ("1640995200" : String).data.length = 10 then (digitsToNat ("1640995200" : String).data : Int) * 1000 else (digitsToNat ("1640995200" : String).data : Int)) →
      parseUnixTimestamp 1600000000000 "1640995200" =
        { isValid := true,
          delayMs := (if ("1640995200" : String).data.length = 10 then (digitsToNat ("1640995200" : String).data : Int) * 1000 else (digitsToNat ("1640995200" : String).data : Int)) - 1600000000000,
          timestamp := (if ("1640995200" : String).data.length = 10 then (digitsToNat ("1640995200" : String).data : Int) * 1000 else (digitsToNat ("1640995200" : String).data : Int)),
          originalInput := "1640995200" }) :=
  c5_unix_amended 1600000000000 "1640995200" (by decide)

/-! ## Claim C6 (corrected) -/

/-- C6 counterexample: the claim says invalid calendar values such as month
13 are a terminal parse error; the embedded Date construction instead rolls
month 13 of 2030 over to January 2031, and parseDateTime accepts the input
13/01/2030 9:00am as the future instant 2031-01-01T09:00 (1925024400000 ms),
which parseTime then returns as a valid result. -/
theorem c6_month13_counterexample :
    matchDateTime ("13/01/2030 9:00am" : String).data =
      some { month := 13, day := 1, year := 2030, hour := 9, minute := 0, period := some "am" } ∧
    (parseDateTime 1760000000000 "13/01/2030 9:00am").isValid = true ∧
    (parseDateTime 1760000000000 "13/01/2030 9:00am").error = none ∧
    (parseDateTime 1760000000000 "13/01/2030 9:00am").timestamp = 1925024400000 ∧
    (parseTime 1760000000000 "13/01/2030 9:00am").isValid = true := by
  decide

/-! ## Helper lemmas for the general parser theorems -/

theorem digitChar_not_ws {c : Char} (h : isDigitChar c = true) : isWsChar c = false := by
  have h' : c ∈ DIGITS := by simpa [isDigitChar] using h
  fin_cases h' <;> decide

theorem digitChar_toLower {c : Char} (h : isDigitChar c = true) : toLowerChar c = c := by
  have h' : c ∈ DIGITS := by simpa [isDigitChar] using h
  fin_cases h' <;> decide

theorem jsToLower_digits {ds : List Char} (h : ds.all isDigitChar = true) :
    jsToLower ds = ds := by
  induction ds with
  | nil => rfl
  | cons d t ih =>
    rw [List.all_cons, Bool.and_eq_true] at h
    simp only [jsToLower, List.map_cons] at ih ⊢
    rw [digitChar_toLower h.1, ih h.2]

theorem jsTrim_digits_concat {ds : List Char} {u : Char}
    (hne : ds ≠ []) (hd : ds.all isDigitChar = true) (hu : isWsChar u = false) :
    jsTrim (ds ++ [u]) = ds ++ [u] := by
  obtain ⟨d, t, rfl⟩ : ∃ d t, ds = d :: t := by
    cases ds with
    | nil => exact absurd rfl hne
    | cons d t => exact ⟨d, t, rfl⟩
  rw [List.all_cons, Bool.and_eq_true] at hd
  have hdw : isWsChar d = false := digitChar_not_ws hd.1
  unfold jsTrim
  rw [List.cons_append, List.dropWhile_cons, hdw]
  simp only [Bool.false_eq_true, if_false]
  rw [show (d :: (t ++ [u])).reverse = u :: (t.reverse ++ [d]) from by simp]
  rw [List.dropWhile_cons, hu]
  simp

theorem matchRelative_concat {ds : List Char} {u : Char}
    (hne : ds ≠ []) (hd : ds.all isDigitChar = true) (hu : u ∈ RELATIVE_UNITS) :
    matchRelative (ds ++ [u]) = some (digitsToNat ds, u) := by
  have hlow : toLowerChar u = u := by fin_cases hu <;> decide
  have hcont : RELATIVE_UNITS.contains u = true := by fin_cases hu <;> decide
  have hempty : ds.isEmpty = false := by
    cases ds with
    | nil => exact absurd rfl hne
    | cons d t => rfl
  unfold matchRelative
  simp only [List.getLast?_concat, List.dropLast_concat, hlow, hempty, hd, hcont,
    Bool.not_false, Bool.and_true, Bool.true_and, if_true]

theorem parseRelativeTime_concat (now : Int) {ds : List Char} {u : Char}
    (hne : ds ≠ []) (hd : ds.all isDigitChar = true)
    (hu : u ∈ RELATIVE_UNITS) (hpos : 0 < digitsToNat ds) :
    parseRelativeTime now (String.mk (ds ++ [u])) =
      { isValid := true, delayMs := ((digitsToNat ds * unitMs u : Nat) : Int),
        timestamp := now + ((digitsToNat ds * unitMs u : Nat) : Int),
        originalInput := String.mk (ds ++ [u]) } := by
  have hmatch : matchRelative (ds ++ [u]) = some (digitsToNat ds, u) :=
    matchRelative_concat hne hd hu
  unfold parseRelativeTime
  rw [show (String.mk (ds ++ [u])).data = ds ++ [u] from rfl, hmatch]
  simp only
  rw [if_neg (by omega)]
  fin_cases hu <;> simp [TimeParseResult.mk.injEq, unitMs] <;> omega

theorem parseTime_of_relative_valid (now : Int) (s : String)
    (h : (parseRelativeTime now (String.mk (jsToLower (jsTrim s.data)))).isValid = true) :
    parseTime now s = parseRelativeTime now (String.mk (jsToLower (jsTrim s.data))) := by
  simp only [parseTime]
  rw [if_pos h]

/-! ## Claim C3 -/

theorem parseTime_relative_general (now : Int) {ds : List Char} {u : Char}
    (hne : ds ≠ []) (hd : ds.all isDigitChar = true)
    (hu : u ∈ RELATIVE_UNITS_BOTH_CASES) (hpos : 0 < digitsToNat ds) :
    parseTime now (String.mk (ds ++ [u])) =
      { isValid := true, delayMs := ((digitsToNat ds * unitMs (toLowerChar u) : Nat) : Int),
        timestamp := now + ((digitsToNat ds * unitMs (toLowerChar u) : Nat) : Int),
        originalInput := String.mk (ds ++ [toLowerChar u]) } := by
  have huw : isWsChar u = false := by fin_cases hu <;> decide
  have hulow : toLowerChar u ∈ RELATIVE_UNITS := by fin_cases hu <;> decide
  have hinput : jsToLower (jsTrim (ds ++ [u])) = ds ++ [toLowerChar u] := by
    rw [jsTrim_digits_concat hne hd huw]
    unfold jsToLower
    rw [List.map_append, show List.map toLowerChar [u] = [toLowerChar u] from rfl]
    rw [show List.map toLowerChar ds = jsToLower ds from rfl, jsToLower_digits hd]
  have hrel := parseRelativeTime_concat now hne hd hulow hpos
  have hvalid : (parseRelativeTime now (String.mk (jsToLower (jsTrim (String.mk (ds ++ [u])).data)))).isValid = true := by
    rw [show (String.mk (ds ++ [u])).data = ds ++ [u] from rfl, hinput, hrel]
  rw [parseTime_of_relative_valid now (String.mk (ds ++ [u])) hvalid]
  rw [show (String.mk (ds ++ [u])).data = ds ++ [u] from rfl, hinput, hrel]

/-- C3: for every positive integer n (given by any all-digit string with
value n) and every unit letter in either case, parseTime of the digits
followed by the unit is valid with delay n times the unit's millisecond
factor, and the whole result is identical to that for the lower-cased
unit. -/
theorem c3_relative_units (now : Int) (ds : List Char) (u : Char) (n : Nat)
    (hne : ds ≠ []) (hd : ds.all isDigitChar = true)
    (hu : u ∈ RELATIVE_UNITS_BOTH_CASES)
    (hval : digitsToNat ds = n) (hpos : 0 < n) :
    (parseTime now (String.mk (ds ++ [u]))).isValid = true ∧
    (parseTime now (String.mk (ds ++ [u]))).delayMs = ((n * unitMs (toLowerChar u) : Nat) : Int) ∧
    parseTime now (String.mk (ds ++ [u])) = parseTime now (String.mk (ds ++ [toLowerChar u])) := by
  subst hval
  have h1 := parseTime_relative_general now hne hd hu hpos
  have hul : toLowerChar u ∈ RELATIVE_UNITS_BOTH_CASES := by fin_cases hu <;> decide
  have hidem : toLowerChar (toLowerChar u) = toLowerChar u := by fin_cases hu <;> decide
  have h2 := parseTime_relative_general now hne hd hul hpos
  rw [hidem] at h2
  refine ⟨?_, ?_, ?_⟩
  · rw [h1]
  · rw [h1]
  · rw [h1, h2]

/-- Witness for C3 at the input 42H seen from now = 0. -/
theorem c3_relative_units_witness :
    (parseTime 0 (String.mk (['4', '2'] ++ ['H']))).isValid = true ∧
    (parseTime 0 (String.mk (['4', '2'] ++ ['H']))).delayMs = ((42 * unitMs (toLowerChar 'H') : Nat) : Int) ∧
    parseTime 0 (String.mk (['4', '2'] ++ ['H'])) = parseTime 0 (String.mk (['4', '2'] ++ [toLowerChar 'H'])) :=
  c3_relative_units 0 ['4', '2'] 'H' 42 (by decide) (by decide) (by decide) (by decide) (by decide)

/-! ## Claim C4 -/

/-- C4: a clock-time input whose converted hour and minute are in range is
valid; the 12-hour conversions hold (12 am is hour 0, 12 pm is hour 12,
other pm hours add 12); the resolved timestamp is today at that clock time,
advanced by exactly one calendar day when that instant is not after now;
the result is strictly in the future and at most one day after today's
instant; and the delay is the resolved timestamp minus now. -/
theorem c4_clock_resolution (now : Int) (s : String) (h0 mi : Nat) (p : Option String)
    (hm : matchAbsolute s.data = some (h0, mi, p))
    (hh : convert12 h0 p ≤ 23) (hmi : mi ≤ 59) :
    (parseAbsoluteTime now s).isValid = true ∧
    (parseAbsoluteTime now s).timestamp =
      (if dayStartOf now + (convert12 h0 p : Int) * 3600000 + (mi : Int) * 60000 ≤ now
       then dayStartOf now + (convert12 h0 p : Int) * 3600000 + (mi : Int) * 60000 + 86400000
       else dayStartOf now + (convert12 h0 p : Int) * 3600000 + (mi : Int) * 60000) ∧
    (parseAbsoluteTime now s).delayMs = (parseAbsoluteTime now s).timestamp - now ∧
    now < (parseAbsoluteTime now s).timestamp ∧
    (parseAbsoluteTime now s).timestamp ≤
      dayStartOf now + (convert12 h0 p : Int) * 3600000 + (mi : Int) * 60000 + 86400000 ∧
    (p = some "am" ∧ h0 = 12 → convert12 h0 p = 0) ∧
    (p = some "pm" ∧ h0 = 12 → convert12 h0 p = 12) ∧
    (p = some "pm" ∧ h0 ≠ 12 → convert12 h0 p = h0 + 12) := by
  have hcond : ¬ (convert12 h0 p > 23 ∨ mi > 59) := by omega
  have hres : parseAbsoluteTime now s =
      { isValid := true,
        delayMs := (if dayStartOf now + (convert12 h0 p : Int) * 3600000 + (mi : Int) * 60000 ≤ now
          then dayStartOf now + (convert12 h0 p : Int) * 3600000 + (mi : Int) * 60000 + 86400000
          else dayStartOf now + (convert12 h0 p : Int) * 3600000 + (mi : Int) * 60000) - now,
        timestamp := (if dayStartOf now + (convert12 h0 p : Int) * 3600000 + (mi : Int) * 60000 ≤ now
          then dayStartOf now + (convert12 h0 p : Int) * 3600000 + (mi : Int) * 60000 + 86400000
          else dayStartOf now + (convert12 h0 p : Int) * 3600000 + (mi : Int) * 60000),
        originalInput := s } := by
    unfold parseAbsoluteTime
    rw [hm]
    simp only
    rw [if_neg hcond]
  rw [hres]
  refine ⟨rfl, rfl, rfl, ?_, ?_, ?_, ?_, ?_⟩
  · simp only [dayStartOf]
    split_ifs with ht <;> omega
  · simp only [dayStartOf]
    split_ifs with ht <;> omega
  · rintro ⟨rfl, rfl⟩
    decide
  · rintro ⟨rfl, rfl⟩
    decide
  · rintro ⟨rfl, hne⟩
    unfold convert12
    rw [if_pos ⟨rfl, hne⟩]

/-- Witness for C4 at the input 12:30am seen from now = 1760000000000. -/
theorem c4_clock_resolution_witness :
    (parseAbsoluteTime 1760000000000 "12:30am").isValid = true ∧
    (parseAbsoluteTime 1760000000000 "12:30am").timestamp =
      (if dayStartOf 1760000000000 + (convert12 12 (some "am") : Int) * 3600000 + (30 : Int) * 60000 ≤ 1760000000000
       then dayStartOf 1760000000000 + (convert12 12 (some "am") : Int) * 3600000 + (30 : Int) * 60000 + 86400000
       else dayStartOf 1760000000000 + (convert12 12 (some "am") : Int) * 3600000 + (30 : Int) * 60000) ∧
    (parseAbsoluteTime 1760000000000 "12:30am").delayMs =
      (parseAbsoluteTime 1760000000000 "12:30am").timestamp - 1760000000000 ∧
    (1760000000000 : Int) < (parseAbsoluteTime 1760000000000 "12:30am").timestamp ∧
    (parseAbsoluteTime 1760000000000 "12:30am").timestamp ≤
      dayStartOf 1760000000000 + (convert12 12 (some "am") : Int) * 3600000 + (30 : Int) * 60000 + 86400000 ∧
    (some "am" = some "am" ∧ 12 = 12 → convert12 12 (some "am") = 0) ∧
    (some "am" = some "pm" ∧ 12 = 12 → convert12 12 (some "am") = 12) ∧
    (some "am" = some "pm" ∧ 12 ≠ 12 → convert12 12 (some "am") = 12 + 12) := by
  have h := c4_clock_resolution 1760000000000 "12:30am" 12 30 (some "am")
    (by decide) (by decide) (by decide)
  exact ⟨h.1, h.2.1, h.2.2.1, h.2.2.2.1, h.2.2.2.2.1,
    h.2.2.2.2.2.1, h.2.2.2.2.2.2.1, h.2.2.2.2.2.2.2⟩

/-! ## Claim C6 amended theorem -/

/-- C6 amended: for a matched explicit date-time within the Date range, the
absolute timestamp is constructed directly with no roll-forward — an instant
at or before now is a terminal past-date error and a future one is valid
with delay the exact difference — but invalid calendar values are not
rejected: the Date construction rolls them over, so month index 12 (input
month 13) of any year is January of the following year. -/
theorem c6_datetime_amended (now : Int) (s : String) (parts : DateTimeParts)
    (hm : matchDateTime s.data = some parts)
    (hrange : -JS_DATE_RANGE ≤ jsDateMs (parts.year : Int) ((parts.month : Int) - 1) (parts.day : Int) (convert12 parts.hour parts.period : Int) (parts.minute : Int) ∧
      jsDateMs (parts.year : Int) ((parts.month : Int) - 1) (parts.day : Int) (convert12 parts.hour parts.period : Int) (parts.minute : Int) ≤ JS_DATE_RANGE) :
    (jsDateMs (parts.year : Int) ((parts.month : Int) - 1) (parts.day : Int) (convert12 parts.hour parts.period : Int) (parts.minute : Int) ≤ now →
      parseDateTime now s =
        { isValid := false, delayMs := 0, timestamp := now,
          error := some "Date is in the past", originalInput := s }) ∧
    (now < jsDateMs (parts.year : Int) ((parts.month : Int) - 1) (parts.day : Int) (convert12 parts.hour parts.period : Int) (parts.minute : Int) →
      parseDateTime now s =
        { isValid := true,
          delayMs := jsDateMs (parts.year : Int) ((parts.month : Int) - 1) (parts.day : Int) (convert12 parts.hour parts.period : Int) (parts.minute : Int) - now,
          timestamp := jsDateMs (parts.year : Int) ((parts.month : Int) - 1) (parts.day : Int) (convert12 parts.hour parts.period : Int) (parts.minute : Int),
          originalInput := s }) ∧
    jsDateMs (parts.year : Int) 12 (parts.day : Int) (convert12 parts.hour parts.period : Int) (parts.minute : Int) =
      jsDateMs ((parts.year : Int) + 1) 0 (parts.day : Int) (convert12 parts.hour parts.period : Int) (parts.minute : Int) := by
  have hnr : ¬ (jsDateMs (parts.year : Int) ((parts.month : Int) - 1) (parts.day : Int) (convert12 parts.hour parts.period : Int) (parts.minute : Int) < -JS_DATE_RANGE ∨
      JS_DATE_RANGE < jsDateMs (parts.year : Int) ((parts.month : Int) - 1) (parts.day : Int) (convert12 parts.hour parts.period : Int) (parts.minute : Int)) := by
    omega
  refine ⟨?_, ?_, ?_⟩
  · intro hpast
    unfold parseDateTime
    rw [hm]
    simp only
    rw [if_neg hnr, if_pos hpast]
  · intro hfut
    unfold parseDateTime
    rw [hm]
    simp only
    rw [if_neg hnr, if_neg (by omega)]
  · unfold jsDateMs
    rw [show (parts.year : Int) * 12 + 12 = ((parts.year : Int) + 1) * 12 + 0 from by ring]

/-- Witness for C6 at the rolled-over input 13/01/2030 9:00am seen from
now = 1760000000000 (a future instant, so the valid branch applies). -/
theorem c6_datetime_amended_witness :
    ((1925024400000 : Int) ≤ 1760000000000 → False) ∧
    parseDateTime 1760000000000 "13/01/2030 9:00am" =
      { isValid := true, delayMs := 1925024400000 - 1760000000000,
        timestamp := 1925024400000, originalInput := "13/01/2030 9:00am" } ∧
    jsDateMs 2030 12 1 9 0 = jsDateMs 2031 0 1 9 0 := by
  have h := c6_datetime_amended 1760000000000 "13/01/2030 9:00am"
    { month := 13, day := 1, year := 2030, hour := 9, minute := 0, period := some "am" }
    (by decide) (by decide)
  refine ⟨by omega, ?_, ?_⟩
  · have h2 := h.2.1 (by decide)
    rw [h2]
    decide
  · have h3 := h.2.2
    simpa using h3

/-! ## Claim C10 -/

theorem parseRelativeTime_originalInput (now : Int) (t : String) :
    (parseRelativeTime now t).originalInput = t := by
  unfold parseRelativeTime
  repeat' (first | rfl | split)

theorem parseAbsoluteTime_originalInput (now : Int) (t : String) :
    (parseAbsoluteTime now t).originalInput = t := by
  unfold parseAbsoluteTime
  repeat' (first | rfl | split | dsimp only)

theorem parseDateTime_originalInput (now : Int) (t : String) :
    (parseDateTime now t).originalInput = t := by
  unfold parseDateTime
  repeat' (first | rfl | split | dsimp only)

theorem parseUnixTimestamp_originalInput (now : Int) (t : String) :
    (parseUnixTimestamp now t).originalInput = t := by
  unfold parseUnixTimestamp
  repeat' (first | rfl | split | dsimp only)

theorem parseNaturalLanguage_originalInput (now : Int) (t : String) :
    (parseNaturalLanguage now t).originalInput = t := by
  unfold parseNaturalLanguage
  repeat' (first | rfl | split | dsimp only)

/-- C10: every valid parseTime result carries, as its originalInput field,
the trimmed and lower-cased form of the caller's input string, never the raw
string as supplied. -/
theorem c10_original_input_normalized (now : Int) (s : String)
    (h : (parseTime now s).isValid = true) :
    (parseTime now s).originalInput = String.mk (jsToLower (jsTrim s.data)) := by
  simp only [parseTime] at h ⊢
  split_ifs at h ⊢
  · exact parseRelativeTime_originalInput now _
  · exact parseAbsoluteTime_originalInput now _
  · exact parseDateTime_originalInput now _
  · exact parseUnixTimestamp_originalInput now _
  · exact parseNaturalLanguage_originalInput now _

/-- Witness for C10 at the raw input with surrounding whitespace and an
upper-case unit. -/
theorem c10_original_input_normalized_witness :
    (parseTime 0 "  2H ").originalInput = String.mk (jsToLower (jsTrim ("  2H " : String).data)) :=
  c10_original_input_normalized 0 "  2H " (by decide)

end Spec2Proof
